import Mathlib

/-!
Verification of the resilience core of the `ai-lead-system` repository:
a shallow embedding of `app/core/circuit_breaker.py` and
`app/services/retry_queue.py`, with theorems checking the specification's
claims about them.

Modelling conventions:
* wall-clock time (Python `time.time()` / `datetime.utcnow()`) is passed in
  explicitly; `time.time()` values are rationals (seconds), retry-queue
  timestamps are naturals (epoch seconds);
* the wrapped operation of a circuit-breaker call is replaced by its
  observable outcome (`OpOutcome`): normal return, raised exception with a
  message, or an `asyncio.TimeoutError`;
* raising an exception is modelled by an explicit result constructor;
* the Redis store of the retry queue is a record of the four structures the
  code uses: the `retry:pending` sorted set, the `retry:processing` set, the
  `retry:dead` list and the `retry:task:<id>` key/value records.
-/

/-- `CircuitState` enum from `circuit_breaker.py`. -/
inductive CircuitState where
  | CLOSED
  | OPEN
  | HALF_OPEN
  deriving DecidableEq

/-- The `CircuitStats` dataclass: total and consecutive outcome counters plus
last-outcome timestamps. -/
structure CircuitStats where
  failures : Nat := 0
  successes : Nat := 0
  last_failure_time : Option Rat := none
  last_success_time : Option Rat := none
  consecutive_failures : Nat := 0
  consecutive_successes : Nat := 0
  deriving DecidableEq

/-- A `CircuitBreaker` instance: configuration fields from `__init__`, the
current state, stats, and `_state_changed_at`. -/
structure CircuitBreaker where
  name : String
  failure_threshold : Nat
  success_threshold : Nat
  timeout_seconds : Rat
  reset_timeout_seconds : Rat
  state : CircuitState
  stats : CircuitStats
  state_changed_at : Rat
  deriving DecidableEq

/-- Keyword arguments of `CircuitBreaker.__init__`, with the Python default
values. -/
structure CircuitConfig where
  failure_threshold : Nat := 5
  success_threshold : Nat := 2
  timeout_seconds : Rat := 30
  reset_timeout_seconds : Rat := 60
  deriving DecidableEq

/-- `CircuitBreaker.__init__`: starts in `CLOSED` with fresh stats;
`_state_changed_at` is the construction time. -/
def CircuitBreaker.init (name : String) (cfg : CircuitConfig) (now : Rat) :
    CircuitBreaker where
  name := name
  failure_threshold := cfg.failure_threshold
  success_threshold := cfg.success_threshold
  timeout_seconds := cfg.timeout_seconds
  reset_timeout_seconds := cfg.reset_timeout_seconds
  state := CircuitState.CLOSED
  stats := {}
  state_changed_at := now

/-- `CircuitBreaker._should_attempt_reset`: true when the breaker is `OPEN`
and at least `reset_timeout_seconds` have passed since the last transition. -/
def CircuitBreaker.should_attempt_reset (cb : CircuitBreaker) (now : Rat) :
    Bool :=
  if cb.state ≠ CircuitState.OPEN then false
  else decide (cb.reset_timeout_seconds ≤ now - cb.state_changed_at)

/-- `CircuitBreaker._transition_to`: moves to `new_state` and stamps
`_state_changed_at`, a no-op when already there. -/
def CircuitBreaker.transition_to (cb : CircuitBreaker)
    (new_state : CircuitState) (now : Rat) : CircuitBreaker :=
  if cb.state ≠ new_state then
    { cb with state := new_state, state_changed_at := now }
  else cb

/-- `CircuitBreaker._on_success`: bookkeeping after a successful call, and the
`HALF_OPEN → CLOSED` transition when the success streak reaches the
threshold. -/
def CircuitBreaker.on_success (cb : CircuitBreaker) (now : Rat) :
    CircuitBreaker :=
  let stats :=
    { cb.stats with
        successes := cb.stats.successes + 1
        last_success_time := some now
        consecutive_successes := cb.stats.consecutive_successes + 1
        consecutive_failures := 0 }
  let cb := { cb with stats := stats }
  if cb.state = CircuitState.HALF_OPEN then
    if cb.success_threshold ≤ cb.stats.consecutive_successes then
      cb.transition_to CircuitState.CLOSED now
    else cb
  else cb

/-- `CircuitBreaker._on_failure`: bookkeeping after a failed call, the
`HALF_OPEN → OPEN` transition on any failure, and the `CLOSED → OPEN`
transition when the failure streak reaches the threshold. -/
def CircuitBreaker.on_failure (cb : CircuitBreaker) (error : String)
    (now : Rat) : CircuitBreaker :=
  let stats :=
    { cb.stats with
        failures := cb.stats.failures + 1
        last_failure_time := some now
        consecutive_failures := cb.stats.consecutive_failures + 1
        consecutive_successes := 0 }
  let cb := { cb with stats := stats }
  if cb.state = CircuitState.HALF_OPEN then
    cb.transition_to CircuitState.OPEN now
  else if cb.state = CircuitState.CLOSED then
    if cb.failure_threshold ≤ cb.stats.consecutive_failures then
      cb.transition_to CircuitState.OPEN now
    else cb
  else cb

/-- Observable outcome of the wrapped operation: returns normally, raises an
exception with message `e`, or hits the `asyncio.wait_for` timeout. -/
inductive OpOutcome where
  | ok
  | exc (e : String)
  | timedOut
  deriving DecidableEq

/-- What `CircuitBreaker.call` does from the caller's point of view: raises
`CircuitOpenError`, returns the operation's result, re-raises the operation's
exception, or re-raises the `asyncio.TimeoutError`. -/
inductive CallResult where
  | rejected
  | returned
  | raised (e : String)
  | raisedTimeout
  deriving DecidableEq

/-- Whether the wrapped operation was actually invoked in a call with this
result: every path except the `CircuitOpenError` rejection runs it. -/
def CallResult.invokedOperation : CallResult → Bool
  | CallResult.rejected => false
  | _ => true

/-- The locked first phase of `CircuitBreaker.call`: attempt the
`OPEN → HALF_OPEN` reset if the cool-down has elapsed. -/
def CircuitBreaker.reset_phase (cb : CircuitBreaker) (now : Rat) :
    CircuitBreaker :=
  if cb.should_attempt_reset now then
    cb.transition_to CircuitState.HALF_OPEN now
  else cb

/-- `CircuitBreaker.call`: reset phase under the lock, rejection while `OPEN`,
otherwise the operation runs and `_on_success` / `_on_failure` record its
outcome (`now_check` is the `time.time()` of the reset check, `now_record` the
one of the outcome bookkeeping). -/
def CircuitBreaker.call (cb : CircuitBreaker) (now_check now_record : Rat)
    (op : OpOutcome) : CircuitBreaker × CallResult :=
  let cb := cb.reset_phase now_check
  if cb.state = CircuitState.OPEN then (cb, CallResult.rejected)
  else
    match op with
    | OpOutcome.ok => (cb.on_success now_record, CallResult.returned)
    | OpOutcome.exc e => (cb.on_failure e now_record, CallResult.raised e)
    | OpOutcome.timedOut =>
        (cb.on_failure "Timeout" now_record, CallResult.raisedTimeout)

/-- The registry lookup of `get_circuit`: Python `dict` as an association
list. -/
def getCircuit (circuits : List (String × CircuitBreaker)) (name : String)
    (cfg : CircuitConfig) (now : Rat) :
    List (String × CircuitBreaker) × CircuitBreaker :=
  match circuits.lookup name with
  | some cb => (circuits, cb)
  | none =>
      let cb := CircuitBreaker.init name cfg now
      ((name, cb) :: circuits, cb)

/-! ### Concrete circuit-breaker instances used by witnesses -/

/-- An `OPEN` breaker that changed state at `t = 100` with a 60 s cool-down. -/
def cbOpenEx : CircuitBreaker :=
  { name := "twilio", failure_threshold := 3, success_threshold := 2,
    timeout_seconds := 10, reset_timeout_seconds := 60,
    state := CircuitState.OPEN, stats := {}, state_changed_at := 100 }

/-- A `HALF_OPEN` breaker one success away from its success threshold. -/
def cbHalfEx : CircuitBreaker :=
  { name := "twilio", failure_threshold := 3, success_threshold := 2,
    timeout_seconds := 10, reset_timeout_seconds := 60,
    state := CircuitState.HALF_OPEN,
    stats := { consecutive_successes := 1 }, state_changed_at := 100 }

/-- C2: while `OPEN` and before `reset_timeout` has elapsed, `call` rejects
with `CircuitOpenError`, leaves the breaker (state and all stats counters)
unchanged, and never invokes the wrapped operation. -/
theorem open_call_rejected_before_cooldown (cb : CircuitBreaker)
    (now_check now_record : Rat) (op : OpOutcome)
    (hopen : cb.state = CircuitState.OPEN)
    (hcool : now_check - cb.state_changed_at < cb.reset_timeout_seconds) :
    cb.call now_check now_record op = (cb, CallResult.rejected) ∧
    (cb.call now_check now_record op).2.invokedOperation = false := by
  have h1 : cb.should_attempt_reset now_check = false := by
    unfold CircuitBreaker.should_attempt_reset
    simp [hopen]
    exact hcool
  have h2 : cb.reset_phase now_check = cb := by
    unfold CircuitBreaker.reset_phase
    simp [h1]
  have h3 : cb.call now_check now_record op = (cb, CallResult.rejected) := by
    unfold CircuitBreaker.call
    rw [h2]
    simp [hopen]
  exact ⟨h3, by rw [h3]; rfl⟩

/-- C2 witness: a concrete rejected call 10 s into a 60 s cool-down. -/
theorem open_call_rejected_before_cooldown_witness :
    cbOpenEx.call 110 110 OpOutcome.ok = (cbOpenEx, CallResult.rejected) ∧
    (cbOpenEx.call 110 110 OpOutcome.ok).2.invokedOperation = false :=
  open_call_rejected_before_cooldown cbOpenEx 110 110 OpOutcome.ok
    (by decide) (by norm_num [cbOpenEx])

/-- C3: the breaker starts `CLOSED` and its state changes only by the listed
transitions: `CLOSED → OPEN` when the failure streak reaches
`failure_threshold` after a failure, `OPEN → HALF_OPEN` via the reset phase of
the next call once `reset_timeout` has elapsed, `HALF_OPEN → CLOSED` when the
success streak reaches `success_threshold` after a success, `HALF_OPEN → OPEN`
on any single failure; and a call whose operation raises re-raises that error
after the failure bookkeeping. -/
theorem circuit_state_machine (cb : CircuitBreaker) (now now2 : Rat)
    (e : String) :
    (∀ nm cfg t, (CircuitBreaker.init nm cfg t).state = CircuitState.CLOSED) ∧
    ((cb.on_success now).state ≠ cb.state →
      cb.state = CircuitState.HALF_OPEN ∧
      (cb.on_success now).state = CircuitState.CLOSED ∧
      cb.success_threshold ≤ cb.stats.consecutive_successes + 1) ∧
    ((cb.on_failure e now).state ≠ cb.state →
      (cb.state = CircuitState.CLOSED ∧
        (cb.on_failure e now).state = CircuitState.OPEN ∧
        cb.failure_threshold ≤ cb.stats.consecutive_failures + 1) ∨
      (cb.state = CircuitState.HALF_OPEN ∧
        (cb.on_failure e now).state = CircuitState.OPEN)) ∧
    ((cb.reset_phase now).state ≠ cb.state →
      cb.state = CircuitState.OPEN ∧
      (cb.reset_phase now).state = CircuitState.HALF_OPEN ∧
      cb.reset_timeout_seconds ≤ now - cb.state_changed_at) ∧
    ((cb.call now now2 (OpOutcome.exc e)).2 = CallResult.rejected ∨
      ((cb.call now now2 (OpOutcome.exc e)).2 = CallResult.raised e ∧
        (cb.call now now2 (OpOutcome.exc e)).1 =
          (cb.reset_phase now).on_failure e now2)) := by
  refine ⟨fun nm cfg t => rfl, ?_, ?_, ?_, ?_⟩
  · intro h
    unfold CircuitBreaker.on_success CircuitBreaker.transition_to at h ⊢
    dsimp only at h ⊢
    split_ifs at h ⊢ <;> simp_all
  · intro h
    unfold CircuitBreaker.on_failure CircuitBreaker.transition_to at h ⊢
    dsimp only at h ⊢
    split_ifs at h ⊢ <;> simp_all
  · intro h
    unfold CircuitBreaker.reset_phase CircuitBreaker.transition_to
      CircuitBreaker.should_attempt_reset at h ⊢
    split_ifs at h ⊢ <;> simp_all
  · unfold CircuitBreaker.call
    dsimp only
    split_ifs with h
    · exact Or.inl rfl
    · exact Or.inr ⟨rfl, rfl⟩

/-- C3 witness: the concrete `HALF_OPEN` breaker one success short of its
threshold transitions to `CLOSED` on a success. -/
theorem circuit_state_machine_witness :
    cbHalfEx.state = CircuitState.HALF_OPEN ∧
    (cbHalfEx.on_success 5).state = CircuitState.CLOSED ∧
    cbHalfEx.success_threshold ≤ cbHalfEx.stats.consecutive_successes + 1 :=
  (circuit_state_machine cbHalfEx 5 5 "boom").2.1 (by decide)

/-- C10: a `get_circuit` call for a name already in the registry returns the
stored breaker and leaves the registry unchanged, whatever configuration it
passes; in particular two callers creating then fetching the same name with
different configurations share the breaker built from the first caller's
configuration. -/
theorem get_circuit_ignores_kwargs (regs : List (String × CircuitBreaker))
    (name : String) (cfg : CircuitConfig) (now : Rat) (cb : CircuitBreaker)
    (h : regs.lookup name = some cb) :
    getCircuit regs name cfg now = (regs, cb) ∧
    (∀ nm cfg1 cfg2 now1 now2,
      (getCircuit (getCircuit [] nm cfg1 now1).1 nm cfg2 now2).2 =
        CircuitBreaker.init nm cfg1 now1) := by
  constructor
  · unfold getCircuit
    rw [h]
  · intro nm cfg1 cfg2 now1 now2
    simp [getCircuit, List.lookup]

/-- A one-entry registry for the C10 witness. -/
def regsEx : List (String × CircuitBreaker) := [("twilio", cbOpenEx)]

/-- C10 witness: fetching "twilio" from a registry that already holds it
returns the stored breaker, with a fresh (different) configuration ignored. -/
theorem get_circuit_ignores_kwargs_witness :
    getCircuit regsEx "twilio" {} 0 = (regsEx, cbOpenEx) :=
  (get_circuit_ignores_kwargs regsEx "twilio" {} 0 cbOpenEx rfl).1

/-! ### Retry queue: data model (`retry_queue.py`)

The Redis store is modelled explicitly: the `retry:pending` sorted set as a
score-sorted association list (id, score), the `retry:processing` set and the
`retry:dead` list as lists of ids, and the `retry:task:<id>` records as an
association list. Timestamps are epoch seconds as naturals. A handler is
modelled by its observable outcome on a payload; the handler table maps a
`task_type` to an optional handler. -/

/-- `TaskStatus` enum from `retry_queue.py`. -/
inductive TaskStatus where
  | PENDING
  | PROCESSING
  | COMPLETED
  | FAILED
  | DEAD
  deriving DecidableEq

/-- The `RetryTask` dataclass. -/
structure RetryTask where
  id : String
  task_type : String
  payload : String
  status : TaskStatus
  attempts : Nat
  max_attempts : Nat
  created_at : Nat
  next_retry_at : Nat
  last_error : Option String := none
  completed_at : Option Nat := none
  deriving DecidableEq

/-- `RetryQueue.BASE_DELAY_SECONDS`. -/
def BASE_DELAY_SECONDS : Nat := 30

/-- `RetryQueue.MAX_DELAY_SECONDS` (1 hour max). -/
def MAX_DELAY_SECONDS : Nat := 3600

/-- `RetryQueue.BACKOFF_MULTIPLIER`. -/
def BACKOFF_MULTIPLIER : Nat := 2

/-- Outcome of invoking a registered handler on a payload: returns, or raises
an exception with message `e`. -/
inductive HandlerRes where
  | ok
  | raised (e : String)
  deriving DecidableEq

/-- The registered-handler table `RetryQueue._handlers`, keyed by task type. -/
def Handlers : Type := String → Option (String → HandlerRes)

/-- Insert an (id, score) entry into a score-sorted list, keeping it sorted
(the Redis sorted-set representation; order among equal scores is irrelevant
to every claim below). -/
def insertByScore (p : String × Nat) : List (String × Nat) →
    List (String × Nat)
  | [] => [p]
  | q :: qs => if p.2 ≤ q.2 then p :: q :: qs else q :: insertByScore p qs

/-- Redis `ZADD`: update or insert the member's score. -/
def zadd (pend : List (String × Nat)) (tid : String) (score : Nat) :
    List (String × Nat) :=
  insertByScore (tid, score) (pend.filter (fun p => p.1 ≠ tid))

/-- Redis `ZREM`: drop the member. -/
def zrem (pend : List (String × Nat)) (tid : String) :
    List (String × Nat) :=
  pend.filter (fun p => p.1 ≠ tid)

/-- Redis `ZRANGEBYSCORE key 0 maxScore LIMIT 0 num`: the (up to `num`)
lowest-scoring members with score ≤ `maxScore` (the lower bound 0 is trivial
over naturals); the list being score-sorted, these are the first matches. -/
def zrangebyscore (pend : List (String × Nat)) (maxScore : Nat) (num : Nat) :
    List String :=
  (((pend.filter (fun p => p.2 ≤ maxScore)).take num).map Prod.fst)

/-- Redis `SADD` on the processing set. -/
def sadd (s : List String) (tid : String) : List String :=
  if tid ∈ s then s else tid :: s

/-- Redis `SREM` on the processing set. -/
def srem (s : List String) (tid : String) : List String :=
  s.filter (fun x => x ≠ tid)

/-- Redis `LPUSH` on the dead-letter list. -/
def lpush (l : List String) (tid : String) : List String := tid :: l

/-- Redis `LREM key 1 tid`: remove the first occurrence of `tid`. -/
def lrem1 : List String → String → List String
  | [], _ => []
  | x :: xs, tid => if x = tid then xs else x :: lrem1 xs tid

/-- Lookup in the task key/value records. -/
def kvGet : List (String × RetryTask) → String → Option RetryTask
  | [], _ => none
  | (k, v) :: rest, tid => if k = tid then some v else kvGet rest tid

/-- Redis `SET` on a task record: overwrite or create. -/
def kvSet : List (String × RetryTask) → String → RetryTask →
    List (String × RetryTask)
  | [], tid, t => [(tid, t)]
  | (k, v) :: rest, tid, t =>
      if k = tid then (k, t) :: rest else (k, v) :: kvSet rest tid t

/-- The shared Redis state used by the retry queue. -/
structure Store where
  pending : List (String × Nat)
  processing : List String
  dead : List String
  tasks : List (String × RetryTask)
  deriving DecidableEq

/-- `RetryQueue.get_task`. -/
def Store.getTask (s : Store) (tid : String) : Option RetryTask :=
  kvGet s.tasks tid

/-- The final `SET` of a task record. -/
def Store.setTask (s : Store) (tid : String) (t : RetryTask) : Store :=
  { s with tasks := kvSet s.tasks tid t }

/-- An empty Redis store. -/
def initialStore : Store := ⟨[], [], [], []⟩

/-- The `delay = min(BASE_DELAY_SECONDS * BACKOFF_MULTIPLIER ** (attempts - 1),
MAX_DELAY_SECONDS)` computation of `_process_task`, as a function of the
post-increment attempt count. -/
def retryDelay (attempts : Nat) : Nat :=
  min (BASE_DELAY_SECONDS * BACKOFF_MULTIPLIER ^ (attempts - 1))
    MAX_DELAY_SECONDS

/-- `RetryQueue.enqueue`, with the fresh `uuid4` id passed in explicitly. -/
def enqueue (s : Store) (task_id task_type payload : String)
    (max_attempts delay_seconds now : Nat) : Store :=
  let next_retry := now + delay_seconds
  let task : RetryTask :=
    { id := task_id, task_type := task_type, payload := payload,
      status := TaskStatus.PENDING, attempts := 0,
      max_attempts := max_attempts, created_at := now,
      next_retry_at := next_retry }
  let s := s.setTask task_id task
  { s with pending := zadd s.pending task_id next_retry }

/-- `RetryQueue._process_task` on store `s`: load the task (early return if
missing), look up the handler (early return if unregistered), increment
`attempts`, run the handler, and on its outcome complete / dead-letter /
reschedule and write the final record. The boolean reports whether the
handler was actually invoked. -/
def processTask (H : Handlers) (now : Nat) (s : Store) (task_id : String) :
    Store × Bool :=
  match s.getTask task_id with
  | none => (s, false)
  | some task =>
    match H task.task_type with
    | none => (s, false)
    | some handler =>
      let task :=
        { task with attempts := task.attempts + 1,
                    status := TaskStatus.PROCESSING }
      match handler task.payload with
      | HandlerRes.ok =>
          let task :=
            { task with status := TaskStatus.COMPLETED,
                        completed_at := some now }
          (s.setTask task_id task, true)
      | HandlerRes.raised e =>
          let task := { task with last_error := some e }
          if task.max_attempts ≤ task.attempts then
            let task := { task with status := TaskStatus.DEAD }
            let s := { s with dead := lpush s.dead task_id }
            (s.setTask task_id task, true)
          else
            let delay := retryDelay task.attempts
            let task :=
              { task with next_retry_at := now + delay,
                          status := TaskStatus.PENDING }
            let s := { s with pending := zadd s.pending task_id (now + delay) }
            (s.setTask task_id task, true)

/-- One iteration of the `process_pending` loop for a claimed id: `ZREM` from
pending, `SADD` to processing, `_process_task`, and the `finally` `SREM` from
processing. -/
def claimOne (H : Handlers) (now : Nat) (s : Store) (tid : String) :
    Store × Bool :=
  let s := { s with pending := zrem s.pending tid }
  let s := { s with processing := sadd s.processing tid }
  let r := processTask H now s tid
  ({ r.1 with processing := srem r.1.processing tid }, r.2)

/-- The body of the `process_pending` loop threaded through the fold: runs
`claimOne` on the accumulated store, always adds one to the `processed`
counter the code returns (in the fault-free model `_process_task` never
raises), and — as ghost instrumentation — counts how many claimed tasks
actually had their handler invoked. -/
def pollLoopStep (H : Handlers) (now : Nat) (acc : Store × Nat × Nat)
    (tid : String) : Store × Nat × Nat :=
  let r := claimOne H now acc.1 tid
  (r.1, acc.2.1 + 1, acc.2.2 + (if r.2 then 1 else 0))

/-- `RetryQueue.process_pending` (fault-free store): claim the due ids and
fold the per-task loop body over them. -/
def processPending (H : Handlers) (now : Nat) (s : Store) :
    Store × Nat × Nat :=
  let task_ids := zrangebyscore s.pending now 100
  task_ids.foldl (pollLoopStep H now) (s, 0, 0)

/-- `RetryQueue.retry_dead_letter`. -/
def retryDeadLetter (s : Store) (task_id : String) (now : Nat) :
    Store × Bool :=
  match s.getTask task_id with
  | none => (s, false)
  | some task =>
    if task.status ≠ TaskStatus.DEAD then (s, false)
    else
      let s := { s with dead := lrem1 s.dead task_id }
      let task :=
        { task with status := TaskStatus.PENDING, attempts := 0,
                    next_retry_at := now }
      let s := s.setTask task_id task
      let s := { s with pending := zadd s.pending task_id now }
      (s, true)

/-! ### Helper lemmas about the store primitives -/

theorem kvGet_kvSet_self (l : List (String × RetryTask)) (tid : String)
    (t : RetryTask) : kvGet (kvSet l tid t) tid = some t := by
  induction l with
  | nil => simp [kvGet, kvSet]
  | cons p rest ih =>
      obtain ⟨k, v⟩ := p
      by_cases h : k = tid <;> simp [kvGet, kvSet, h, ih]

theorem kvGet_kvSet_ne (l : List (String × RetryTask)) (tid tid' : String)
    (t : RetryTask) (h : tid' ≠ tid) :
    kvGet (kvSet l tid t) tid' = kvGet l tid' := by
  induction l with
  | nil => simp [kvGet, kvSet, Ne.symm h]
  | cons p rest ih =>
      obtain ⟨k, v⟩ := p
      by_cases hk : k = tid
      · subst hk
        simp [kvGet, kvSet, Ne.symm h]
      · simp [kvGet, kvSet, hk, ih]

theorem insertByScore_perm (p : String × Nat) (l : List (String × Nat)) :
    (insertByScore p l).Perm (p :: l) := by
  induction l with
  | nil => simp [insertByScore]
  | cons r rest ih =>
      by_cases h : p.2 ≤ r.2
      · simp [insertByScore, h]
      · simp only [insertByScore, if_neg h]
        exact (ih.cons r).trans (List.Perm.swap p r rest)

theorem mem_insertByScore (q p : String × Nat) (l : List (String × Nat)) :
    q ∈ insertByScore p l ↔ q = p ∨ q ∈ l := by
  rw [(insertByScore_perm p l).mem_iff]
  simp

theorem mem_keys_insertByScore (tid : String) (p : String × Nat)
    (l : List (String × Nat)) :
    tid ∈ (insertByScore p l).map Prod.fst ↔
      tid = p.1 ∨ tid ∈ l.map Prod.fst := by
  rw [((insertByScore_perm p l).map Prod.fst).mem_iff]
  simp

theorem nodup_keys_insertByScore (p : String × Nat) (l : List (String × Nat))
    (hl : (l.map Prod.fst).Nodup) (hp : p.1 ∉ l.map Prod.fst) :
    ((insertByScore p l).map Prod.fst).Nodup := by
  rw [((insertByScore_perm p l).map Prod.fst).nodup_iff]
  simpa using And.intro hp hl

theorem keys_filter_sublist (f : String × Nat → Bool)
    (l : List (String × Nat)) :
    ((l.filter f).map Prod.fst).Sublist (l.map Prod.fst) :=
  (List.filter_sublist l).map Prod.fst

theorem not_mem_keys_filter_ne (tid : String) (l : List (String × Nat)) :
    tid ∉ ((l.filter (fun p => p.1 ≠ tid)).map Prod.fst) := by
  simp only [List.mem_map, List.mem_filter]
  rintro ⟨q, ⟨hq, hne⟩, rfl⟩
  simp at hne

theorem mem_keys_zadd (tid' tid : String) (score : Nat)
    (pend : List (String × Nat)) :
    tid' ∈ (zadd pend tid score).map Prod.fst ↔
      tid' = tid ∨ (tid' ∈ pend.map Prod.fst ∧ tid' ≠ tid) := by
  unfold zadd
  rw [mem_keys_insertByScore]
  simp only [List.mem_map, List.mem_filter]
  constructor
  · rintro (rfl | ⟨q, ⟨hq, hne⟩, rfl⟩)
    · exact Or.inl rfl
    · simp only [ne_eq, decide_not, Bool.not_eq_true', decide_eq_false_iff_not] at hne
      exact Or.inr ⟨⟨q, hq, rfl⟩, hne⟩
  · rintro (rfl | ⟨⟨q, hq, rfl⟩, hne⟩)
    · exact Or.inl rfl
    · refine Or.inr ⟨q, ⟨hq, ?_⟩, rfl⟩
      simpa using hne

theorem nodup_keys_zadd (tid : String) (score : Nat)
    (pend : List (String × Nat)) (h : (pend.map Prod.fst).Nodup) :
    ((zadd pend tid score).map Prod.fst).Nodup := by
  unfold zadd
  exact nodup_keys_insertByScore _ _
    (h.sublist (keys_filter_sublist _ pend)) (not_mem_keys_filter_ne tid pend)

theorem mem_keys_zrem (tid' tid : String) (pend : List (String × Nat)) :
    tid' ∈ (zrem pend tid).map Prod.fst ↔
      tid' ∈ pend.map Prod.fst ∧ tid' ≠ tid := by
  unfold zrem
  simp only [List.mem_map, List.mem_filter]
  constructor
  · rintro ⟨q, ⟨hq, hne⟩, rfl⟩
    simp only [ne_eq, decide_not, Bool.not_eq_true', decide_eq_false_iff_not] at hne
    exact ⟨⟨q, hq, rfl⟩, hne⟩
  · rintro ⟨⟨q, hq, rfl⟩, hne⟩
    refine ⟨q, ⟨hq, ?_⟩, rfl⟩
    simpa using hne

theorem nodup_keys_zrem (tid : String) (pend : List (String × Nat))
    (h : (pend.map Prod.fst).Nodup) :
    ((zrem pend tid).map Prod.fst).Nodup :=
  h.sublist (keys_filter_sublist _ pend)

theorem mem_lrem1_of_mem (l : List String) (tid tid' : String)
    (hne : tid' ≠ tid) (h : tid' ∈ l) : tid' ∈ lrem1 l tid := by
  induction l with
  | nil => simp at h
  | cons x xs ih =>
      by_cases hx : x = tid
      · subst hx
        simp only [lrem1, if_pos rfl]
        rcases List.mem_cons.1 h with rfl | hmem
        · exact absurd rfl hne
        · exact hmem
      · simp only [lrem1, if_neg hx, List.mem_cons]
        rcases List.mem_cons.1 h with rfl | hmem
        · exact Or.inl rfl
        · exact Or.inr (ih hmem)

theorem zrangebyscore_sublist_keys (pend : List (String × Nat))
    (maxScore num : Nat) :
    (zrangebyscore pend maxScore num).Sublist (pend.map Prod.fst) := by
  unfold zrangebyscore
  exact ((List.take_sublist _ _).trans (List.filter_sublist pend)).map Prod.fst

theorem mem_zrangebyscore_keys (tid : String) (pend : List (String × Nat))
    (maxScore num : Nat) (h : tid ∈ zrangebyscore pend maxScore num) :
    tid ∈ pend.map Prod.fst :=
  (zrangebyscore_sublist_keys pend maxScore num).mem h

theorem nodup_zrangebyscore (pend : List (String × Nat)) (maxScore num : Nat)
    (h : (pend.map Prod.fst).Nodup) :
    (zrangebyscore pend maxScore num).Nodup :=
  h.sublist (zrangebyscore_sublist_keys pend maxScore num)

/-! ### C9: retry_dead_letter -/

/-- C9: on a stored `DEAD` task, `retry_dead_letter` resets `attempts = 0`,
`status = PENDING`, `next_retry_at = now`, removes the id from the dead-letter
list, re-inserts it into the pending index with score `now`, and returns true;
on a missing task or a non-`DEAD` one it returns false and leaves the store
unchanged. -/
theorem retry_dead_letter_spec (s : Store) (tid : String) (now : Nat) :
    (∀ t, s.getTask tid = some t → t.status = TaskStatus.DEAD →
      retryDeadLetter s tid now =
        (⟨zadd s.pending tid now, s.processing, lrem1 s.dead tid,
          kvSet s.tasks tid
            { t with status := TaskStatus.PENDING, attempts := 0,
                     next_retry_at := now }⟩, true)) ∧
    (s.getTask tid = none → retryDeadLetter s tid now = (s, false)) ∧
    (∀ t, s.getTask tid = some t → t.status ≠ TaskStatus.DEAD →
      retryDeadLetter s tid now = (s, false)) := by
  refine ⟨?_, ?_, ?_⟩
  · intro t ht hd
    unfold retryDeadLetter
    rw [ht]
    simp [hd, Store.setTask]
  · intro h
    unfold retryDeadLetter
    rw [h]
  · intro t ht hd
    unfold retryDeadLetter
    rw [ht]
    simp [hd]

/-- A dead task and a store holding it, for the C9 witness. -/
def deadTaskEx : RetryTask :=
  { id := "t9", task_type := "send", payload := "p",
    status := TaskStatus.DEAD, attempts := 3, max_attempts := 3,
    created_at := 0, next_retry_at := 0, last_error := some "x" }

/-- Store with `deadTaskEx` in the dead-letter list. -/
def deadStoreEx9 : Store := ⟨[], [], ["t9"], [("t9", deadTaskEx)]⟩

/-- C9 witness: requeueing the concrete dead task applies all the resets. -/
theorem retry_dead_letter_spec_witness :
    retryDeadLetter deadStoreEx9 "t9" 50 =
      (⟨zadd deadStoreEx9.pending "t9" 50, deadStoreEx9.processing,
        lrem1 deadStoreEx9.dead "t9",
        kvSet deadStoreEx9.tasks "t9"
          { deadTaskEx with status := TaskStatus.PENDING, attempts := 0,
                            next_retry_at := 50 }⟩, true) :=
  (retry_dead_letter_spec deadStoreEx9 "t9" 50).1 deadTaskEx (by decide)
    (by decide)

/-! ### C4: exponential backoff -/

/-- C4: a handler failure whose post-increment attempt count is below
`max_attempts` reschedules the task with delay
`min(BASE_DELAY_SECONDS * BACKOFF_MULTIPLIER ^ (attempts - 1),
MAX_DELAY_SECONDS)`; with the configured constants this gives 30 s, 60 s and
120 s for attempts 1, 2, 3, never exceeds 3600 s, and sits exactly at the
3600 s cap from attempt 8 on. -/
theorem backoff_delay_spec (H : Handlers) (now : Nat) (s : Store)
    (tid : String) (t : RetryTask) (handler : String → HandlerRes)
    (e : String) (ht : s.getTask tid = some t)
    (hh : H t.task_type = some handler)
    (hf : handler t.payload = HandlerRes.raised e)
    (hlt : t.attempts + 1 < t.max_attempts) :
    (processTask H now s tid).1.getTask tid =
      some { t with attempts := t.attempts + 1,
                    status := TaskStatus.PENDING, last_error := some e,
                    next_retry_at := now + retryDelay (t.attempts + 1) } ∧
    (processTask H now s tid).1.pending =
      zadd s.pending tid (now + retryDelay (t.attempts + 1)) ∧
    retryDelay (t.attempts + 1) =
      min (BASE_DELAY_SECONDS * BACKOFF_MULTIPLIER ^ t.attempts)
        MAX_DELAY_SECONDS ∧
    retryDelay 1 = 30 ∧ retryDelay 2 = 60 ∧ retryDelay 3 = 120 ∧
    (∀ a, retryDelay a ≤ 3600) ∧ (∀ a, 8 ≤ a → retryDelay a = 3600) := by
  have hcase : (processTask H now s tid) =
      ({ (⟨zadd s.pending tid (now + retryDelay (t.attempts + 1)),
          s.processing, s.dead, s.tasks⟩ : Store) with
          tasks := kvSet s.tasks tid
            { t with attempts := t.attempts + 1,
                     status := TaskStatus.PENDING, last_error := some e,
                     next_retry_at := now + retryDelay (t.attempts + 1) } },
        true) := by
    unfold processTask
    rw [ht]
    dsimp only
    rw [hh]
    dsimp only
    rw [hf]
    dsimp only
    rw [if_neg (by omega)]
    rfl
  refine ⟨?_, ?_, ?_, by decide, by decide, by decide, ?_, ?_⟩
  · rw [hcase]
    exact kvGet_kvSet_self s.tasks tid _
  · rw [hcase]
  · simp [retryDelay]
  · intro a
    exact min_le_right _ _
  · intro a ha
    unfold retryDelay BASE_DELAY_SECONDS BACKOFF_MULTIPLIER MAX_DELAY_SECONDS
    have h2 : 2 ^ 7 ≤ 2 ^ (a - 1) :=
      Nat.pow_le_pow_right (by omega) (by omega)
    have : 3600 ≤ 30 * 2 ^ (a - 1) := by
      calc 3600 ≤ 30 * 2 ^ 7 := by norm_num
        _ ≤ 30 * 2 ^ (a - 1) := Nat.mul_le_mul_left 30 h2
    omega

/-! ### Evaluation lemmas for `processTask` and `retryDeadLetter` -/

theorem processTask_none (H : Handlers) (now : Nat) (s : Store)
    (tid : String) (hc : s.getTask tid = none) :
    processTask H now s tid = (s, false) := by
  unfold processTask
  rw [hc]

theorem processTask_noHandler (H : Handlers) (now : Nat) (s : Store)
    (tid : String) (t : RetryTask) (hc : s.getTask tid = some t)
    (hh : H t.task_type = none) :
    processTask H now s tid = (s, false) := by
  unfold processTask
  rw [hc]
  dsimp only
  rw [hh]

theorem processTask_ok (H : Handlers) (now : Nat) (s : Store) (tid : String)
    (t : RetryTask) (handler : String → HandlerRes)
    (hc : s.getTask tid = some t) (hh : H t.task_type = some handler)
    (hout : handler t.payload = HandlerRes.ok) :
    processTask H now s tid =
      (s.setTask tid
        { t with attempts := t.attempts + 1, status := TaskStatus.COMPLETED,
                 completed_at := some now }, true) := by
  unfold processTask
  rw [hc]
  dsimp only
  rw [hh]
  dsimp only
  rw [hout]

theorem processTask_dead (H : Handlers) (now : Nat) (s : Store)
    (tid : String) (t : RetryTask) (handler : String → HandlerRes)
    (e : String) (hc : s.getTask tid = some t)
    (hh : H t.task_type = some handler)
    (hout : handler t.payload = HandlerRes.raised e)
    (hge : t.max_attempts ≤ t.attempts + 1) :
    processTask H now s tid =
      (({ s with dead := lpush s.dead tid }).setTask tid
        { t with attempts := t.attempts + 1, status := TaskStatus.DEAD,
                 last_error := some e }, true) := by
  unfold processTask
  rw [hc]
  dsimp only
  rw [hh]
  dsimp only
  rw [hout]
  dsimp only
  rw [if_pos hge]

theorem processTask_retry (H : Handlers) (now : Nat) (s : Store)
    (tid : String) (t : RetryTask) (handler : String → HandlerRes)
    (e : String) (hc : s.getTask tid = some t)
    (hh : H t.task_type = some handler)
    (hout : handler t.payload = HandlerRes.raised e)
    (hlt : t.attempts + 1 < t.max_attempts) :
    processTask H now s tid =
      (({ s with
            pending := zadd s.pending tid
              (now + retryDelay (t.attempts + 1)) }).setTask tid
        { t with attempts := t.attempts + 1, status := TaskStatus.PENDING,
                 last_error := some e,
                 next_retry_at := now + retryDelay (t.attempts + 1) },
        true) := by
  unfold processTask
  rw [hc]
  dsimp only
  rw [hh]
  dsimp only
  rw [hout]
  dsimp only
  rw [if_neg (by omega)]

theorem retryDeadLetter_not_found (s : Store) (tid : String) (now : Nat)
    (hc : s.getTask tid = none) : retryDeadLetter s tid now = (s, false) := by
  unfold retryDeadLetter
  rw [hc]

theorem retryDeadLetter_not_dead (s : Store) (tid : String) (now : Nat)
    (t : RetryTask) (hc : s.getTask tid = some t)
    (hd : t.status ≠ TaskStatus.DEAD) :
    retryDeadLetter s tid now = (s, false) := by
  unfold retryDeadLetter
  rw [hc]
  simp [hd]

theorem retryDeadLetter_dead (s : Store) (tid : String) (now : Nat)
    (t : RetryTask) (hc : s.getTask tid = some t)
    (hd : t.status = TaskStatus.DEAD) :
    retryDeadLetter s tid now =
      (⟨zadd s.pending tid now, s.processing, lrem1 s.dead tid,
        kvSet s.tasks tid
          { t with status := TaskStatus.PENDING, attempts := 0,
                   next_retry_at := now }⟩, true) := by
  unfold retryDeadLetter
  rw [hc]
  simp [hd, Store.setTask]

/-! ### C5: the DEAD-task invariant over reachable queue states -/

theorem getTask_setTask_self (s : Store) (tid : String) (t : RetryTask) :
    (s.setTask tid t).getTask tid = some t :=
  kvGet_kvSet_self s.tasks tid t

theorem getTask_setTask_ne (s : Store) (tid tid' : String) (t : RetryTask)
    (h : tid' ≠ tid) : (s.setTask tid t).getTask tid' = s.getTask tid' :=
  kvGet_kvSet_ne s.tasks tid tid' t h

theorem not_mem_keys_zrem_self (tid : String) (pend : List (String × Nat)) :
    tid ∉ (zrem pend tid).map Prod.fst := fun h =>
  ((mem_keys_zrem tid tid pend).1 h).2 rfl

/-- The store invariant maintained by every retry-queue operation: pending
ids are distinct, every pending id denotes a stored `PENDING` task, stored
`PENDING` tasks (with a positive attempt budget) have attempts left, and a
stored `DEAD` task (with a positive attempt budget) has exhausted exactly its
budget, sits in the dead-letter list, and is absent from the pending index. -/
structure QInv (s : Store) : Prop where
  nodup_pending : (s.pending.map Prod.fst).Nodup
  pending_status : ∀ tid ∈ s.pending.map Prod.fst,
    ∃ t, s.getTask tid = some t ∧ t.status = TaskStatus.PENDING
  pending_attempts : ∀ tid t, s.getTask tid = some t →
    t.status = TaskStatus.PENDING → 1 ≤ t.max_attempts →
    t.attempts < t.max_attempts
  dead_inv : ∀ tid t, s.getTask tid = some t →
    t.status = TaskStatus.DEAD → 1 ≤ t.max_attempts →
    t.attempts = t.max_attempts ∧ tid ∈ s.dead ∧
    tid ∉ s.pending.map Prod.fst

theorem QInv_initial : QInv initialStore := by
  constructor <;> simp [initialStore, Store.getTask, kvGet]

theorem enqueue_eq (s : Store) (tid ttype payload : String)
    (maxA delay now : Nat) :
    enqueue s tid ttype payload maxA delay now =
      ⟨zadd s.pending tid (now + delay), s.processing, s.dead,
        kvSet s.tasks tid
          { id := tid, task_type := ttype, payload := payload,
            status := TaskStatus.PENDING, attempts := 0,
            max_attempts := maxA, created_at := now,
            next_retry_at := now + delay }⟩ := rfl

theorem QInv_enqueue (s : Store) (tid ttype payload : String)
    (maxA delay now : Nat) (hI : QInv s) (fresh : s.getTask tid = none) :
    QInv (enqueue s tid ttype payload maxA delay now) := by
  rw [enqueue_eq]
  constructor
  · exact nodup_keys_zadd tid (now + delay) s.pending hI.nodup_pending
  · intro tid' hmem
    simp only [Store.getTask]
    rcases (mem_keys_zadd tid' tid (now + delay) s.pending).1 hmem with
      rfl | ⟨hold, hne⟩
    · exact ⟨_, kvGet_kvSet_self s.tasks tid' _, rfl⟩
    · obtain ⟨t', ht', hs'⟩ := hI.pending_status tid' hold
      exact ⟨t', (kvGet_kvSet_ne s.tasks tid tid' _ hne).trans ht', hs'⟩
  · intro tid' t' ht' hs' hm'
    simp only [Store.getTask] at ht'
    by_cases hne : tid' = tid
    · subst hne
      rw [kvGet_kvSet_self] at ht'
      injection ht' with he
      subst he
      dsimp only at hm' ⊢
      omega
    · rw [kvGet_kvSet_ne s.tasks tid tid' _ hne] at ht'
      exact hI.pending_attempts tid' t' ht' hs' hm'
  · intro tid' t' ht' hs' hm'
    simp only [Store.getTask] at ht'
    by_cases hne : tid' = tid
    · subst hne
      rw [kvGet_kvSet_self] at ht'
      injection ht' with he
      subst he
      simp at hs'
    · rw [kvGet_kvSet_ne s.tasks tid tid' _ hne] at ht'
      obtain ⟨h1, h2, h3⟩ := hI.dead_inv tid' t' ht' hs' hm'
      refine ⟨h1, h2, fun hmem => ?_⟩
      rcases (mem_keys_zadd tid' tid (now + delay) s.pending).1 hmem with
        rfl | ⟨hold, _⟩
      · exact hne rfl
      · exact h3 hold

theorem QInv_processTask (H : Handlers) (now : Nat) (s : Store)
    (tid : String) (hI : QInv s) (hnp : tid ∉ s.pending.map Prod.fst)
    (hP : ∀ t, s.getTask tid = some t → t.status = TaskStatus.PENDING) :
    QInv (processTask H now s tid).1 ∧
    (∀ tid', tid' ≠ tid →
      (processTask H now s tid).1.getTask tid' = s.getTask tid') := by
  rcases hc : s.getTask tid with _ | t
  · rw [processTask_none H now s tid hc]
    exact ⟨hI, fun _ _ => rfl⟩
  rcases hh : H t.task_type with _ | handler
  · rw [processTask_noHandler H now s tid t hc hh]
    exact ⟨hI, fun _ _ => rfl⟩
  rcases hout : handler t.payload with _ | e
  · -- handler success: record completed
    rw [processTask_ok H now s tid t handler hc hh hout]
    dsimp only
    refine ⟨⟨?_, ?_, ?_, ?_⟩, ?_⟩
    · exact hI.nodup_pending
    · intro tid' hmem
      have hmem' : tid' ∈ s.pending.map Prod.fst := hmem
      have hne : tid' ≠ tid := fun he => hnp (he ▸ hmem')
      obtain ⟨t', ht', hs'⟩ := hI.pending_status tid' hmem'
      exact ⟨t', (getTask_setTask_ne s tid tid' _ hne).trans ht', hs'⟩
    · intro tid' t' ht' hs' hm'
      by_cases hne : tid' = tid
      · subst hne
        rw [getTask_setTask_self] at ht'
        injection ht' with he
        subst he
        simp at hs'
      · rw [getTask_setTask_ne s tid tid' _ hne] at ht'
        exact hI.pending_attempts tid' t' ht' hs' hm'
    · intro tid' t' ht' hs' hm'
      by_cases hne : tid' = tid
      · subst hne
        rw [getTask_setTask_self] at ht'
        injection ht' with he
        subst he
        simp at hs'
      · rw [getTask_setTask_ne s tid tid' _ hne] at ht'
        exact hI.dead_inv tid' t' ht' hs' hm'
    · intro tid' hne
      exact getTask_setTask_ne s tid tid' _ hne
  by_cases hge : t.max_attempts ≤ t.attempts + 1
  · -- handler failure, attempts exhausted: dead-letter
    rw [processTask_dead H now s tid t handler e hc hh hout hge]
    dsimp only
    refine ⟨⟨?_, ?_, ?_, ?_⟩, ?_⟩
    · exact hI.nodup_pending
    · intro tid' hmem
      have hmem' : tid' ∈ s.pending.map Prod.fst := hmem
      have hne : tid' ≠ tid := fun he => hnp (he ▸ hmem')
      obtain ⟨t', ht', hs'⟩ := hI.pending_status tid' hmem'
      exact ⟨t',
        (getTask_setTask_ne { s with dead := lpush s.dead tid } tid tid' _
          hne).trans ht', hs'⟩
    · intro tid' t' ht' hs' hm'
      by_cases hne : tid' = tid
      · subst hne
        rw [getTask_setTask_self] at ht'
        injection ht' with he
        subst he
        simp at hs'
      · rw [getTask_setTask_ne _ tid tid' _ hne] at ht'
        exact hI.pending_attempts tid' t' ht' hs' hm'
    · intro tid' t' ht' hs' hm'
      by_cases hne : tid' = tid
      · subst hne
        rw [getTask_setTask_self] at ht'
        injection ht' with he
        subst he
        dsimp only at hm' ⊢
        have hstat := hP t hc
        have hlt := hI.pending_attempts _ t hc hstat hm'
        refine ⟨by omega, List.mem_cons_self _ s.dead, hnp⟩
      · rw [getTask_setTask_ne _ tid tid' _ hne] at ht'
        obtain ⟨h1, h2, h3⟩ := hI.dead_inv tid' t' ht' hs' hm'
        exact ⟨h1, List.mem_cons_of_mem tid h2, h3⟩
    · intro tid' hne
      exact getTask_setTask_ne _ tid tid' _ hne
  · -- handler failure, attempts remain: reschedule with backoff
    have hlt : t.attempts + 1 < t.max_attempts := by omega
    rw [processTask_retry H now s tid t handler e hc hh hout hlt]
    dsimp only
    refine ⟨⟨?_, ?_, ?_, ?_⟩, ?_⟩
    · exact nodup_keys_zadd tid _ s.pending hI.nodup_pending
    · intro tid' hmem
      have hmem' : tid' ∈
          (zadd s.pending tid (now + retryDelay (t.attempts + 1))).map
            Prod.fst := hmem
      rcases (mem_keys_zadd tid' tid _ s.pending).1 hmem' with
        rfl | ⟨hold, hne⟩
      · exact ⟨_, getTask_setTask_self _ tid' _, rfl⟩
      · obtain ⟨t', ht', hs'⟩ := hI.pending_status tid' hold
        exact ⟨t', (getTask_setTask_ne _ tid tid' _ hne).trans ht', hs'⟩
    · intro tid' t' ht' hs' hm'
      by_cases hne : tid' = tid
      · subst hne
        rw [getTask_setTask_self] at ht'
        injection ht' with he
        subst he
        dsimp only at hm' ⊢
        omega
      · rw [getTask_setTask_ne _ tid tid' _ hne] at ht'
        exact hI.pending_attempts tid' t' ht' hs' hm'
    · intro tid' t' ht' hs' hm'
      by_cases hne : tid' = tid
      · subst hne
        rw [getTask_setTask_self] at ht'
        injection ht' with he
        subst he
        simp at hs'
      · rw [getTask_setTask_ne _ tid tid' _ hne] at ht'
        obtain ⟨h1, h2, h3⟩ := hI.dead_inv tid' t' ht' hs' hm'
        refine ⟨h1, h2, fun hmem => ?_⟩
        rcases (mem_keys_zadd tid' tid _ s.pending).1 hmem with
          rfl | ⟨hold, _⟩
        · exact hne rfl
        · exact h3 hold
    · intro tid' hne
      exact getTask_setTask_ne _ tid tid' _ hne

theorem QInv_claimOne (H : Handlers) (now : Nat) (s : Store) (tid : String)
    (hI : QInv s)
    (hP : ∀ t, s.getTask tid = some t → t.status = TaskStatus.PENDING) :
    QInv (claimOne H now s tid).1 ∧
    (∀ tid', tid' ≠ tid →
      (claimOne H now s tid).1.getTask tid' = s.getTask tid') := by
  have hI2 : QInv (⟨zrem s.pending tid, sadd s.processing tid, s.dead,
      s.tasks⟩ : Store) := by
    constructor
    · exact nodup_keys_zrem tid s.pending hI.nodup_pending
    · intro tid' hmem
      obtain ⟨hold, hne⟩ := (mem_keys_zrem tid' tid s.pending).1 hmem
      exact hI.pending_status tid' hold
    · exact hI.pending_attempts
    · intro tid' t' ht' hs' hm'
      obtain ⟨h1, h2, h3⟩ := hI.dead_inv tid' t' ht' hs' hm'
      exact ⟨h1, h2,
        fun hmem => h3 ((mem_keys_zrem tid' tid s.pending).1 hmem).1⟩
  have h := QInv_processTask H now
    ⟨zrem s.pending tid, sadd s.processing tid, s.dead, s.tasks⟩ tid hI2
    (not_mem_keys_zrem_self tid s.pending) hP
  constructor
  · exact ⟨h.1.nodup_pending, h.1.pending_status, h.1.pending_attempts,
      h.1.dead_inv⟩
  · intro tid' hne
    exact h.2 tid' hne

theorem QInv_pollLoop (H : Handlers) (now : Nat) :
    ∀ (ids : List String) (s : Store) (p q : Nat), QInv s → ids.Nodup →
    (∀ tid ∈ ids, ∀ t, s.getTask tid = some t →
      t.status = TaskStatus.PENDING) →
    QInv ((ids.foldl (pollLoopStep H now) (s, p, q)).1) := by
  intro ids
  induction ids with
  | nil =>
      intro s p q hI _ _
      simpa using hI
  | cons tid rest ih =>
      intro s p q hI hnd hP
      rw [List.foldl_cons]
      have hco := QInv_claimOne H now s tid hI
        (hP tid (List.mem_cons_self tid rest))
      have hstep : pollLoopStep H now (s, p, q) tid =
          ((claimOne H now s tid).1, p + 1,
            q + (if (claimOne H now s tid).2 then 1 else 0)) := rfl
      rw [hstep]
      apply ih
      · exact hco.1
      · exact (List.nodup_cons.1 hnd).2
      · intro tid' hmem t ht
        have hne : tid' ≠ tid := fun he =>
          (List.nodup_cons.1 hnd).1 (he ▸ hmem)
        rw [hco.2 tid' hne] at ht
        exact hP tid' (List.mem_cons_of_mem tid hmem) t ht

theorem QInv_processPending (H : Handlers) (now : Nat) (s : Store)
    (hI : QInv s) : QInv (processPending H now s).1 := by
  unfold processPending
  dsimp only
  apply QInv_pollLoop H now _ s 0 0 hI
  · exact nodup_zrangebyscore s.pending now 100 hI.nodup_pending
  · intro tid hmem t ht
    obtain ⟨t', ht', hs'⟩ := hI.pending_status tid
      (mem_zrangebyscore_keys tid s.pending now 100 hmem)
    rw [ht] at ht'
    injection ht' with he
    subst he
    exact hs'

theorem QInv_retryDeadLetter (s : Store) (tid : String) (now : Nat)
    (hI : QInv s) : QInv (retryDeadLetter s tid now).1 := by
  rcases hc : s.getTask tid with _ | t
  · rw [retryDeadLetter_not_found s tid now hc]
    exact hI
  by_cases hd : t.status = TaskStatus.DEAD
  · rw [retryDeadLetter_dead s tid now t hc hd]
    dsimp only
    constructor
    · exact nodup_keys_zadd tid now s.pending hI.nodup_pending
    · intro tid' hmem
      simp only [Store.getTask]
      rcases (mem_keys_zadd tid' tid now s.pending).1 hmem with
        rfl | ⟨hold, hne⟩
      · exact ⟨_, kvGet_kvSet_self s.tasks tid' _, rfl⟩
      · obtain ⟨t', ht', hs'⟩ := hI.pending_status tid' hold
        exact ⟨t', (kvGet_kvSet_ne s.tasks tid tid' _ hne).trans ht', hs'⟩
    · intro tid' t' ht' hs' hm'
      simp only [Store.getTask] at ht'
      by_cases hne : tid' = tid
      · subst hne
        rw [kvGet_kvSet_self] at ht'
        injection ht' with he
        subst he
        dsimp only at hm' ⊢
        omega
      · rw [kvGet_kvSet_ne s.tasks tid tid' _ hne] at ht'
        exact hI.pending_attempts tid' t' ht' hs' hm'
    · intro tid' t' ht' hs' hm'
      simp only [Store.getTask] at ht'
      by_cases hne : tid' = tid
      · subst hne
        rw [kvGet_kvSet_self] at ht'
        injection ht' with he
        subst he
        simp at hs'
      · rw [kvGet_kvSet_ne s.tasks tid tid' _ hne] at ht'
        obtain ⟨h1, h2, h3⟩ := hI.dead_inv tid' t' ht' hs' hm'
        refine ⟨h1, mem_lrem1_of_mem s.dead tid tid' hne h2,
          fun hmem => ?_⟩
        rcases (mem_keys_zadd tid' tid now s.pending).1 hmem with
          rfl | ⟨hold, _⟩
        · exact hne rfl
        · exact h3 hold
  · rw [retryDeadLetter_not_dead s tid now t hc hd]
    exact hI

/-- One operation of the retry-queue surface against the shared store:
`enqueue` with a fresh id, one `process_pending` poll, or an operator
`retry_dead_letter` call. -/
inductive QStep (H : Handlers) : Store → Store → Prop where
  | enq (s : Store) (tid ttype payload : String) (maxA delay now : Nat)
      (fresh : s.getTask tid = none) :
      QStep H s (enqueue s tid ttype payload maxA delay now)
  | poll (s : Store) (now : Nat) : QStep H s (processPending H now s).1
  | requeue (s : Store) (tid : String) (now : Nat) :
      QStep H s (retryDeadLetter s tid now).1

/-- Stores reachable from the empty store by retry-queue operations. -/
inductive Reachable (H : Handlers) : Store → Prop where
  | init : Reachable H initialStore
  | step {s s' : Store} : Reachable H s → QStep H s s' → Reachable H s'

theorem QInv_reachable (H : Handlers) (s : Store) (h : Reachable H s) :
    QInv s := by
  induction h with
  | init => exact QInv_initial
  | step hr hstep ih =>
      cases hstep with
      | enq tid ttype payload maxA delay now fresh =>
          exact QInv_enqueue _ tid ttype payload maxA delay now ih fresh
      | poll now => exact QInv_processPending H now _ ih
      | requeue tid now => exact QInv_retryDeadLetter _ tid now ih

/-- C5: in every reachable store, a task stored with `status = DEAD` and an
attempt budget `max_attempts ≥ 1` has `attempts = max_attempts`, its id is in
the dead-letter list, and its id is absent from the pending index — so it can
never again be claimed by `process_pending`; only `retry_dead_letter` (which
resets the status away from `DEAD`) puts it back. -/
theorem dead_task_invariant (H : Handlers) (s : Store) (h : Reachable H s)
    (tid : String) (t : RetryTask) (ht : s.getTask tid = some t)
    (hd : t.status = TaskStatus.DEAD) (hm : 1 ≤ t.max_attempts) :
    t.attempts = t.max_attempts ∧ tid ∈ s.dead ∧
    tid ∉ s.pending.map Prod.fst :=
  (QInv_reachable H s h).dead_inv tid t ht hd hm

/-! ### Concrete handler tables and stores for witnesses and
counterexamples -/

/-- Handler table with a handler for "send" that always succeeds. -/
def HOkSend : Handlers :=
  fun ttype => if ttype = "send" then some (fun _ => HandlerRes.ok) else none

/-- Handler table with a handler for "send" that always raises "boom". -/
def HFailSend : Handlers :=
  fun ttype =>
    if ttype = "send" then some (fun _ => HandlerRes.raised "boom") else none

/-- Empty handler table: no task type is registered. -/
def HEmpty : Handlers := fun _ => none

/-- Store reached by enqueueing a "send" task with `max_attempts = 1` into an
empty store and polling once with the always-failing handler: the task is
dead-lettered on its first attempt. -/
def deadReachedStore : Store :=
  (processPending HFailSend 0 (enqueue initialStore "t1" "send" "p" 1 0 0)).1

/-- The dead task record stored in `deadReachedStore`. -/
def deadReachedTask : RetryTask :=
  { id := "t1", task_type := "send", payload := "p",
    status := TaskStatus.DEAD, attempts := 1, max_attempts := 1,
    created_at := 0, next_retry_at := 0, last_error := some "boom" }

/-- C5 witness: the invariant holds of the concrete reachable store whose
only task was just dead-lettered. -/
theorem dead_task_invariant_witness :
    deadReachedStore.getTask "t1" = some deadReachedTask ∧
    deadReachedTask.attempts = deadReachedTask.max_attempts ∧
    "t1" ∈ deadReachedStore.dead ∧
    "t1" ∉ deadReachedStore.pending.map Prod.fst := by
  have hr : Reachable HFailSend deadReachedStore :=
    Reachable.step
      (Reachable.step Reachable.init
        (QStep.enq initialStore "t1" "send" "p" 1 0 0 (by decide)))
      (QStep.poll (enqueue initialStore "t1" "send" "p" 1 0 0) 0)
  exact ⟨by decide, dead_task_invariant HFailSend deadReachedStore hr "t1"
    deadReachedTask (by decide) (by decide) (by decide)⟩

/-! ### C6: claimed task with no registered handler -/

/-- A store holding one due task of type "mystery", which no handler table
below registers. -/
def unroutableStore : Store :=
  enqueue initialStore "t1" "mystery" "p" 5 0 0

/-- The untouched record of the unroutable task. -/
def unroutableTask : RetryTask :=
  { id := "t1", task_type := "mystery", payload := "p",
    status := TaskStatus.PENDING, attempts := 0, max_attempts := 5,
    created_at := 0, next_retry_at := 0 }

/-- C6 counterexample: after `process_pending` claims the task with no
registered handler, the task is NOT left in the processing set — the
`finally` clause has removed it — and its stored record is untouched (still
`PENDING`), while it is also gone from the pending index: it is stranded in
no queue at all. -/
theorem no_handler_counterexample :
    (processPending HEmpty 0 unroutableStore).1.processing = [] ∧
    "t1" ∉ (processPending HEmpty 0 unroutableStore).1.processing ∧
    (processPending HEmpty 0 unroutableStore).1.getTask "t1" =
      some unroutableTask ∧
    (processPending HEmpty 0 unroutableStore).1.pending = [] := by decide

/-- C6 (amended): when a claimed task's type has no registered handler,
`_process_task` logs and returns early, leaving the stored record unmodified
(no status change, no attempt increment, no completion, no reschedule, no
dead-letter); the id has already been removed from the pending index, and the
loop's `finally` clause removes it from the processing set as well, so it is
stranded outside every queue structure rather than inside the processing
set. -/
theorem no_handler_leaves_task_stranded (H : Handlers) (now : Nat)
    (s : Store) (tid : String) (t : RetryTask)
    (ht : s.getTask tid = some t) (hh : H t.task_type = none) :
    claimOne H now s tid =
      (⟨zrem s.pending tid, srem (sadd s.processing tid) tid, s.dead,
        s.tasks⟩, false) ∧
    (claimOne H now s tid).1.getTask tid = some t ∧
    tid ∉ (claimOne H now s tid).1.processing := by
  have hpt : processTask H now
      (⟨zrem s.pending tid, sadd s.processing tid, s.dead, s.tasks⟩ : Store)
      tid = (⟨zrem s.pending tid, sadd s.processing tid, s.dead, s.tasks⟩,
        false) :=
    processTask_noHandler H now _ tid t ht hh
  have hc : claimOne H now s tid =
      (⟨zrem s.pending tid, srem (sadd s.processing tid) tid, s.dead,
        s.tasks⟩, false) := by
    unfold claimOne
    dsimp only
    rw [hpt]
  refine ⟨hc, ?_, ?_⟩
  · rw [hc]
    exact ht
  · rw [hc]
    dsimp only
    unfold srem
    simp

/-- C6 amended-claim witness: the concrete unroutable task. -/
theorem no_handler_leaves_task_stranded_witness :
    claimOne HEmpty 0 unroutableStore "t1" =
      (⟨zrem unroutableStore.pending "t1",
        srem (sadd unroutableStore.processing "t1") "t1",
        unroutableStore.dead, unroutableStore.tasks⟩, false) ∧
    (claimOne HEmpty 0 unroutableStore "t1").1.getTask "t1" =
      some unroutableTask ∧
    "t1" ∉ (claimOne HEmpty 0 unroutableStore "t1").1.processing :=
  no_handler_leaves_task_stranded HEmpty 0 unroutableStore "t1"
    unroutableTask (by decide) rfl

/-! ### C7: the meaning of the returned count -/

/-- C7 counterexample: polling the store whose single due task has no
registered handler returns `processed = 1` even though no handler was
invoked, so the returned count is not the number of handler-executed tasks
and does include configuration errors. -/
theorem processed_count_counterexample :
    (processPending HEmpty 0 unroutableStore).2.1 = 1 ∧
    (processPending HEmpty 0 unroutableStore).2.2 = 0 := by decide

theorem pollLoop_count (H : Handlers) (now : Nat) :
    ∀ (ids : List String) (s : Store) (p q : Nat),
      (ids.foldl (pollLoopStep H now) (s, p, q)).2.1 = p + ids.length ∧
      (ids.foldl (pollLoopStep H now) (s, p, q)).2.2 ≤ q + ids.length := by
  intro ids
  induction ids with
  | nil =>
      intro s p q
      simp
  | cons tid rest ih =>
      intro s p q
      rw [List.foldl_cons]
      have hstep : pollLoopStep H now (s, p, q) tid =
          ((claimOne H now s tid).1, p + 1,
            q + (if (claimOne H now s tid).2 then 1 else 0)) := rfl
      rw [hstep]
      obtain ⟨h1, h2⟩ := ih (claimOne H now s tid).1 (p + 1)
        (q + (if (claimOne H now s tid).2 then 1 else 0))
      refine ⟨by rw [h1]; simp [List.length_cons]; omega, ?_⟩
      refine le_trans h2 ?_
      have : (if (claimOne H now s tid).2 then 1 else 0) ≤ 1 := by
        split_ifs <;> omega
      simp only [List.length_cons]
      omega

/-- C7 (amended): in the fault-free store model the count returned by
`process_pending` equals the number of claimed ids — `_process_task` returns
normally for every claimed id, including tasks with no registered handler and
missing task records — while the number of tasks whose handler was actually
invoked can be strictly smaller (it is only bounded by the count). -/
theorem processed_counts_claimed (H : Handlers) (now : Nat) (s : Store) :
    (processPending H now s).2.1 =
      (zrangebyscore s.pending now 100).length ∧
    (processPending H now s).2.2 ≤ (processPending H now s).2.1 := by
  unfold processPending
  dsimp only
  obtain ⟨h1, h2⟩ := pollLoop_count H now (zrangebyscore s.pending now 100)
    s 0 0
  rw [h1]
  exact ⟨by omega, h2⟩

/-- A due "send" task with three attempts allowed, for the C4 witness. -/
def retryStoreEx : Store := enqueue initialStore "t1" "send" "p" 3 0 0

/-- The stored record of the task in `retryStoreEx`. -/
def retryTaskEx : RetryTask :=
  { id := "t1", task_type := "send", payload := "p",
    status := TaskStatus.PENDING, attempts := 0, max_attempts := 3,
    created_at := 0, next_retry_at := 0 }

/-- C4 witness: the first failure of the concrete task reschedules it 30 s
out (`retryDelay 1`). -/
theorem backoff_delay_spec_witness :
    (processTask HFailSend 5 retryStoreEx "t1").1.getTask "t1" =
      some { retryTaskEx with attempts := 1,
                              status := TaskStatus.PENDING,
                              last_error := some "boom",
                              next_retry_at := 5 + retryDelay 1 } :=
  (backoff_delay_spec HFailSend 5 retryStoreEx "t1" retryTaskEx
    (fun _ => HandlerRes.raised "boom") "boom" (by decide) rfl rfl
    (by decide)).1

/-! ### C1: concurrent `process_pending` against the same store

Each Redis command is atomic, but `process_pending` claims ids with a
`ZRANGEBYSCORE` read followed by separate `ZREM`/`SADD` commands, so two
pollers can interleave between the read and the removal. A poller is modelled
by its control point: before its `ZRANGEBYSCORE` snapshot, inside the loop
over its snapshot, or finished. The `iterate` step bundles one loop
iteration (`ZREM`, `SADD`, `_process_task`, `SREM`) into a single atomic
step — coarser than the real command granularity, which only makes the model
more favourable to the no-double-claim claim — while the snapshot is its own
step, exactly as in the code. -/

/-- Control point of one `process_pending` invocation, carrying the claimed
snapshot still to process and the ids whose handler this invocation has
actually executed. -/
inductive PollerPhase where
  | ready
  | looping (remaining invoked : List String)
  | finished (invoked : List String)
  deriving DecidableEq

/-- One atomic step of a single poller against the shared store. -/
inductive PollerStep (H : Handlers) (now : Nat) :
    Store × PollerPhase → Store × PollerPhase → Prop where
  | snapshot (s : Store) :
      PollerStep H now (s, PollerPhase.ready)
        (s, PollerPhase.looping (zrangebyscore s.pending now 100) [])
  | iterate (s : Store) (tid : String) (rest invoked : List String) :
      PollerStep H now (s, PollerPhase.looping (tid :: rest) invoked)
        ((claimOne H now s tid).1,
          PollerPhase.looping rest
            (invoked ++ (if (claimOne H now s tid).2 then [tid] else [])))
  | finish (s : Store) (invoked : List String) :
      PollerStep H now (s, PollerPhase.looping [] invoked)
        (s, PollerPhase.finished invoked)

/-- Interleaving of two independent `process_pending` invocations sharing the
store: at each step one of the two pollers performs one atomic step. -/
inductive ConcStep (H : Handlers) (now : Nat) :
    Store × PollerPhase × PollerPhase →
      Store × PollerPhase × PollerPhase → Prop where
  | stepA (s s' : Store) (pa pa' pb : PollerPhase) :
      PollerStep H now (s, pa) (s', pa') →
      ConcStep H now (s, pa, pb) (s', pa', pb)
  | stepB (s s' : Store) (pa pb pb' : PollerPhase) :
      PollerStep H now (s, pb) (s', pb') →
      ConcStep H now (s, pa, pb) (s', pa, pb')

/-- One due "send" task, a registered always-succeeding handler. -/
def raceStore : Store := enqueue initialStore "t1" "send" "p" 5 0 0

/-- The store after both pollers ran their loop: the single task was executed
twice — `attempts = 2` after being claimed from one pending entry. -/
def raceFinalStore : Store :=
  ⟨[], [], [],
    [("t1", { id := "t1", task_type := "send", payload := "p",
              status := TaskStatus.COMPLETED, attempts := 2,
              max_attempts := 5, created_at := 0, next_retry_at := 0,
              completed_at := some 10 })]⟩

/-- C1 refutation: from the one-task store with both pollers idle there is an
interleaved execution — both pollers take their `ZRANGEBYSCORE` snapshot
before either performs its `ZREM` — after which BOTH invocations have
executed the handler for task "t1" (each finishes with invoked list
`["t1"]`, and the stored record shows `attempts = 2`). The claim step is not
atomic, and the sets of handler-executed ids are not disjoint. -/
theorem double_claim_both_pollers_run_handler :
    Relation.ReflTransGen (ConcStep HOkSend 10)
      (raceStore, PollerPhase.ready, PollerPhase.ready)
      (raceFinalStore, PollerPhase.finished ["t1"],
        PollerPhase.finished ["t1"]) ∧
    "t1" ∈ (["t1"] : List String) ∧
    raceFinalStore.getTask "t1" =
      some { id := "t1", task_type := "send", payload := "p",
             status := TaskStatus.COMPLETED, attempts := 2,
             max_attempts := 5, created_at := 0, next_retry_at := 0,
             completed_at := some 10 } := by
  refine ⟨?_, by decide, by decide⟩
  exact
    Relation.ReflTransGen.head
      (ConcStep.stepA _ _ _ _ _ (PollerStep.snapshot raceStore))
      (Relation.ReflTransGen.head
        (ConcStep.stepB _ _ _ _ _ (PollerStep.snapshot raceStore))
        (Relation.ReflTransGen.head
          (ConcStep.stepA _ _ _ _ _
            (PollerStep.iterate raceStore "t1" [] []))
          (Relation.ReflTransGen.head
            (ConcStep.stepA _ _ _ _ _ (PollerStep.finish _ ["t1"]))
            (Relation.ReflTransGen.head
              (ConcStep.stepB _ _ _ _ _ (PollerStep.iterate _ "t1" [] []))
              (Relation.ReflTransGen.head
                (ConcStep.stepB _ _ _ _ _ (PollerStep.finish _ ["t1"]))
                Relation.ReflTransGen.refl)))))

/-! ### C8: store-level errors vs handler errors

The same `process_pending` / `_process_task` pair, with each Redis command
allowed to raise: a fault oracle says which commands fail (the store being
unavailable). A raised store error carries no payload (`Except.error ()`).
This mirrors the `try/except Exception/finally` structure of the code: the
`except` around `await self._process_task(task_id)` catches anything raised
inside `_process_task` — including store errors — while errors raised by the
scan (`zrangebyscore`) and by the claim/cleanup commands in the loop body
(`zrem`, `sadd`, the `finally` `srem`) escape `process_pending`. -/

/-- The Redis commands issued during one poll, as fault-injection points. -/
inductive ROp where
  | zrangeOp
  | zremOp (tid : String)
  | saddOp (tid : String)
  | sremOp (tid : String)
  | getOp (tid : String)
  | setOp (tid : String)
  | zaddOp (tid : String)
  | lpushOp (tid : String)
  deriving DecidableEq

/-- `_process_task` with store faults: the `GET` of the record, the `ZADD`
reschedule, the dead-letter `LPUSH` and the final `SET` can each raise; a
fault returns the store as mutated so far together with the error. The `ok`
payload reports whether the handler was invoked. -/
def processTaskE (H : Handlers) (now : Nat) (flt : ROp → Bool) (s : Store)
    (task_id : String) : Store × Except Unit Bool :=
  if flt (ROp.getOp task_id) then (s, Except.error ()) else
  match s.getTask task_id with
  | none => (s, Except.ok false)
  | some task =>
    match H task.task_type with
    | none => (s, Except.ok false)
    | some handler =>
      let task :=
        { task with attempts := task.attempts + 1,
                    status := TaskStatus.PROCESSING }
      match handler task.payload with
      | HandlerRes.ok =>
          let task :=
            { task with status := TaskStatus.COMPLETED,
                        completed_at := some now }
          if flt (ROp.setOp task_id) then (s, Except.error ())
          else (s.setTask task_id task, Except.ok true)
      | HandlerRes.raised e =>
          let task := { task with last_error := some e }
          if task.max_attempts ≤ task.attempts then
            let task := { task with status := TaskStatus.DEAD }
            if flt (ROp.lpushOp task_id) then (s, Except.error ())
            else
              let s := { s with dead := lpush s.dead task_id }
              if flt (ROp.setOp task_id) then (s, Except.error ())
              else (s.setTask task_id task, Except.ok true)
          else
            let delay := retryDelay task.attempts
            let task :=
              { task with next_retry_at := now + delay,
                          status := TaskStatus.PENDING }
            if flt (ROp.zaddOp task_id) then (s, Except.error ())
            else
              let s :=
                { s with pending := zadd s.pending task_id (now + delay) }
              if flt (ROp.setOp task_id) then (s, Except.error ())
              else (s.setTask task_id task, Except.ok true)

/-- One iteration of the faulting loop: a pending error short-circuits the
remaining iterations (the exception is unwinding); otherwise `ZREM` and
`SADD` may raise and escape, the `_process_task` outcome is caught by the
`except` (an error skips the `processed += 1`), and the `finally` `SREM` may
itself raise and escape. -/
def pollLoopStepE (H : Handlers) (now : Nat) (flt : ROp → Bool)
    (acc : Store × Except Unit Nat) (tid : String) :
    Store × Except Unit Nat :=
  match acc with
  | (s, Except.error e) => (s, Except.error e)
  | (s, Except.ok n) =>
    if flt (ROp.zremOp tid) then (s, Except.error ()) else
    let s := { s with pending := zrem s.pending tid }
    if flt (ROp.saddOp tid) then (s, Except.error ()) else
    let s := { s with processing := sadd s.processing tid }
    let r := processTaskE H now flt s tid
    let n := match r.2 with
      | Except.ok _ => n + 1
      | Except.error _ => n
    if flt (ROp.sremOp tid) then (r.1, Except.error ()) else
    ({ r.1 with processing := srem r.1.processing tid }, Except.ok n)

/-- `process_pending` with store faults: the initial `ZRANGEBYSCORE` may
raise, then the loop over the claimed ids runs with per-command faults. -/
def processPendingE (H : Handlers) (now : Nat) (flt : ROp → Bool)
    (s : Store) : Store × Except Unit Nat :=
  if flt ROp.zrangeOp then (s, Except.error ()) else
  let task_ids := zrangebyscore s.pending now 100
  task_ids.foldl (pollLoopStepE H now flt) (s, Except.ok 0)

/-- The fault oracle that fails exactly the record `GET` of task "t1". -/
def fltGetT1 : ROp → Bool := fun op => decide (op = ROp.getOp "t1")

/-- The fault oracle that fails exactly the claim `ZREM` of task "t1". -/
def fltZremT1 : ROp → Bool := fun op => decide (op = ROp.zremOp "t1")

/-- C8 counterexample: on the one-task store, with the store raising on the
record `GET` inside `_process_task`, the task is claimed (the scan returned
it) and the store error fires — yet `process_pending` returns normally with
count 0: the per-task `except Exception` caught the store-level error instead
of letting it propagate. -/
theorem store_error_swallowed_counterexample :
    fltGetT1 (ROp.getOp "t1") = true ∧
    zrangebyscore raceStore.pending 10 100 = ["t1"] ∧
    processPendingE HOkSend 10 fltGetT1 raceStore =
      (⟨[], [], [], raceStore.tasks⟩, Except.ok 0) := by
  refine ⟨rfl, rfl, ?_⟩
  rfl

theorem pollLoopStepE_ok_shape (H : Handlers) (now : Nat) (flt : ROp → Bool)
    (tid : String) (s : Store) (n : Nat)
    (hz : flt (ROp.zremOp tid) = false)
    (hsa : flt (ROp.saddOp tid) = false)
    (hsr : flt (ROp.sremOp tid) = false) :
    ∃ s' m, pollLoopStepE H now flt (s, Except.ok n) tid =
      (s', Except.ok m) := by
  unfold pollLoopStepE
  simp only [hz, hsa, hsr, Bool.false_eq_true, if_false]
  exact ⟨_, _, rfl⟩

theorem pollLoopE_ok (H : Handlers) (now : Nat) (flt : ROp → Bool)
    (hz : ∀ tid, flt (ROp.zremOp tid) = false)
    (hsa : ∀ tid, flt (ROp.saddOp tid) = false)
    (hsr : ∀ tid, flt (ROp.sremOp tid) = false) :
    ∀ (ids : List String) (s : Store) (n : Nat),
      ∃ s' m, ids.foldl (pollLoopStepE H now flt) (s, Except.ok n) =
        (s', Except.ok m) := by
  intro ids
  induction ids with
  | nil =>
      intro s n
      exact ⟨s, n, rfl⟩
  | cons tid rest ih =>
      intro s n
      obtain ⟨s', m, hstep⟩ := pollLoopStepE_ok_shape H now flt tid s n
        (hz tid) (hsa tid) (hsr tid)
      rw [List.foldl_cons, hstep]
      exact ih s' m

/-- C8 (amended): store errors raised inside `_process_task` (record `GET`,
reschedule `ZADD`, dead-letter `LPUSH`, final `SET`) and every handler
exception are caught by the loop's `except Exception` and never propagate out
of `process_pending` — whenever the scan and the loop-level claim/cleanup
commands are healthy, `process_pending` returns normally whatever faults the
per-task commands and handlers produce. Store errors raised by the
`ZRANGEBYSCORE` scan always propagate, and (concretely) so does a store error
raised by the claim `ZREM`. -/
theorem store_error_propagation (H : Handlers) (now : Nat) (s : Store)
    (flt : ROp → Bool) (h1 : flt ROp.zrangeOp = false)
    (h2 : ∀ tid, flt (ROp.zremOp tid) = false)
    (h3 : ∀ tid, flt (ROp.saddOp tid) = false)
    (h4 : ∀ tid, flt (ROp.sremOp tid) = false) :
    (∃ s' m, processPendingE H now flt s = (s', Except.ok m)) ∧
    (∀ flt2 : ROp → Bool, flt2 ROp.zrangeOp = true →
      ∀ (H2 : Handlers) (now2 : Nat) (s2 : Store),
        processPendingE H2 now2 flt2 s2 = (s2, Except.error ())) ∧
    processPendingE HOkSend 10 fltZremT1 raceStore =
      (raceStore, Except.error ()) := by
  refine ⟨?_, ?_, rfl⟩
  · unfold processPendingE
    simp only [h1, Bool.false_eq_true, if_false]
    exact pollLoopE_ok H now flt h2 h3 h4 _ s 0
  · intro flt2 hscan H2 now2 s2
    unfold processPendingE
    simp [hscan]

/-- C8 witness: with no store faults and the always-raising handler, the
concrete one-task poll returns normally — the handler failure was absorbed
into a scheduling decision. -/
theorem store_error_propagation_witness :
    ∃ s' m, processPendingE HFailSend 10 (fun _ => false) raceStore =
      (s', Except.ok m) :=
  (store_error_propagation HFailSend 10 raceStore (fun _ => false) rfl
    (fun _ => rfl) (fun _ => rfl) (fun _ => rfl)).1
